import Mathlib

/-!
Shallow embedding of the oauth2-rs client library (`src/lib.rs`).

Strings are Lean `String`s; character-level operations (`ASCII` lowercasing,
space splitting/joining, UTF-8 decoding) are implemented explicitly on
`List Char` / `List Nat` so that they mirror the Rust standard library
functions the source calls (`str::to_lowercase`, `str::split(' ')`,
`Vec::join(" ")`, `String::from_utf8`, `String::from_utf8_lossy`).

External collaborators (the HTTP transport, serde's generic JSON
deserialization) are out of scope per the specification; the token/error
JSON decoders appear as function parameters of the response classifier,
exactly as the source's `T::from_json` / `serde_json::from_str` calls are
generic over the token and error types.
-/

namespace OAuth2

/-! ## Character-level helpers -/

/-- ASCII lowercasing of a single character, the fragment of Rust's
`char::to_lowercase` relevant to the ASCII strings compared by the source
(`"application/json"`, `"bearer"`, `"mac"`). -/
def asciiLowerChar (c : Char) : Char :=
  if 'A' ≤ c ∧ c ≤ 'Z' then Char.ofNat (c.toNat + 32) else c

/-- Lowercasing of a character list (model of `str::to_lowercase`). -/
def asciiLower (l : List Char) : List Char := l.map asciiLowerChar

/-- Join character lists with a single space: model of Rust
`Vec::<String>::join(" ")` at the character level. -/
def joinSp : List (List Char) → List Char
  | [] => []
  | [x] => x
  | x :: y :: t => x ++ ' ' :: joinSp (y :: t)

/-- Split a character list at every space: model of Rust `str::split(' ')`,
which always yields at least one (possibly empty) piece. -/
def splitSp : List Char → List (List Char)
  | [] => [[]]
  | c :: rest =>
    if c = ' ' then [] :: splitSp rest
    else
      match splitSp rest with
      | r :: rs => (c :: r) :: rs
      | [] => [[c]]

/-- `Vec::<String>::join(" ")` on strings. -/
def joinSpace (l : List String) : String :=
  String.mk (joinSp (l.map String.data))

/-- `str::split(' ').collect::<Vec<String>>()` on strings. -/
def splitSpace (s : String) : List String :=
  (splitSp s.data).map String.mk

/-! ## URL model

The `url` crate is an external collaborator; a URL is modelled by its
components, with the query held as an ordered list of key/value pairs.
`Url::query_pairs_mut().extend_pairs(..)` appends pairs after the
pre-existing query, which the model expresses as list append. -/

structure Url where
  scheme : String
  host : String
  path : String
  query : List (String × String)
deriving DecidableEq, Repr

/-! ## Client configuration (`struct Client`) -/

/-- `enum AuthType` from the source. -/
inductive AuthType where
  | RequestBody
  | BasicAuth
deriving DecidableEq, Repr

/-- `struct Client` from the source (the three `PhantomData` fields carry
no data and are dropped; the token/error type parameters reappear on the
operations that use them). -/
structure Client where
  client_id : String
  client_secret : Option String
  auth_url : Url
  auth_type : AuthType
  token_url : Url
  scopes : List String
  redirect_url : Option String
deriving DecidableEq, Repr

/-! ## Authorization URL builder (`Client::authorize_url_impl`) -/

/-- The standard parameter pairs pushed by `authorize_url_impl` before the
extra parameters: `response_type`, `client_id`, then `redirect_uri` if
configured, then `scope` if the joined scope string is non-empty, then
`state` if provided — in exactly the order of the source's `pairs.push`
calls. -/
def authorize_pairs (c : Client) (response_type : String)
    (state_opt : Option String) : List (String × String) :=
  [("response_type", response_type), ("client_id", c.client_id)]
    ++ (match c.redirect_url with
        | some r => [("redirect_uri", r)]
        | none => [])
    ++ (if joinSpace c.scopes = "" then [] else [("scope", joinSpace c.scopes)])
    ++ (match state_opt with
        | some s => [("state", s)]
        | none => [])

/-- `Client::authorize_url_impl`: clones `auth_url` and appends the standard
pairs and then the extra parameters to its query via
`query_pairs_mut().extend_pairs`. The Rust method takes `&self`, so the
stored configuration is never modified; the embedding is a pure function
of the configuration. -/
def authorize_url_impl (c : Client) (response_type : String)
    (state_opt : Option String)
    (extra_params_opt : Option (List (String × String))) : Url :=
  { c.auth_url with
      query := c.auth_url.query ++ authorize_pairs c response_type state_opt
                 ++ extra_params_opt.getD [] }

/-- `Client::authorize_url` (Authorization Code Grant). -/
def authorize_url (c : Client) (state : String) : Url :=
  authorize_url_impl c "code" (some state) none

/-- `Client::authorize_url_implicit` (Implicit Grant). -/
def authorize_url_implicit (c : Client) (state : String) : Url :=
  authorize_url_impl c "token" (some state) none

/-- `Client::authorize_url_extension`. -/
def authorize_url_extension (c : Client) (response_type : String)
    (extra_params : List (String × String)) : Url :=
  authorize_url_impl c response_type none (some extra_params)

/-- `insecure::authorize_url`. -/
def insecure_authorize_url (c : Client) : Url :=
  authorize_url_impl c "code" none none

/-- `insecure::authorize_url_implicit`. -/
def insecure_authorize_url_implicit (c : Client) : Url :=
  authorize_url_impl c "token" none none

/-! ## Grant-specific parameter sets (`Client::exchange_*`) -/

/-- Parameters built by `Client::exchange_code`. -/
def exchange_code_params (code : String) : List (String × String) :=
  [("grant_type", "authorization_code"), ("code", code)]

/-- Parameters built by `Client::exchange_password`. -/
def exchange_password_params (username password : String) :
    List (String × String) :=
  [("grant_type", "password"), ("username", username),
   ("password", password)]

/-- Parameters built by `Client::exchange_client_credentials`: `scope` is
pushed only when the configured scope list is non-empty
(`if !self.scopes.is_empty()`). -/
def exchange_client_credentials_params (c : Client) :
    List (String × String) :=
  [("grant_type", "client_credentials")]
    ++ (if c.scopes.isEmpty then [] else [("scope", joinSpace c.scopes)])

/-- Parameters built by `Client::exchange_refresh_token`. -/
def exchange_refresh_token_params (refresh_token : String) :
    List (String × String) :=
  [("grant_type", "refresh_token"), ("refresh_token", refresh_token)]

/-! ## Token-endpoint POST request (`Client::post_request_token`)

Only the request construction is modelled; the curl transfer itself is the
external transport collaborator. -/

/-- The outgoing POST request: the form body parameter list (form
urlencoding of the pairs is the `url` crate's job and injective on this
representation) and the HTTP Basic credentials set on the curl handle. -/
structure PostRequest where
  bodyParams : List (String × String)
  username : Option String
  password : Option String
deriving DecidableEq, Repr

/-- `Client::post_request_token`, request-construction part: depending on
`auth_type`, either pushes `client_id` / `client_secret` onto the body
parameters or sets them as Basic-auth credentials; afterwards pushes
`redirect_uri` when configured. -/
def post_request_token (c : Client) (params : List (String × String)) :
    PostRequest :=
  let withAuth : List (String × String) × Option String × Option String :=
    match c.auth_type with
    | .RequestBody =>
        (params ++ [("client_id", c.client_id)]
           ++ (match c.client_secret with
               | some s => [("client_secret", s)]
               | none => []),
         none, none)
    | .BasicAuth => (params, some c.client_id, c.client_secret)
  { bodyParams := withAuth.1
      ++ (match c.redirect_url with
          | some r => [("redirect_uri", r)]
          | none => []),
    username := withAuth.2.1,
    password := withAuth.2.2 }

/-! ## UTF-8 decoding (model of `String::from_utf8` / `from_utf8_lossy`)

A response body is a byte list. `utf8DecodeOne` decodes one scalar value
per the UTF-8 rules (over-long forms, surrogates and values above
`0x10FFFF` rejected, as in Rust). The lossy decoder substitutes one
U+FFFD per maximal valid prefix of an ill-formed sequence, as
`String::from_utf8_lossy` does. -/

/-- A UTF-8 continuation byte. -/
def isCont (b : Nat) : Bool := 0x80 ≤ b ∧ b ≤ 0xBF

/-- Admissible second byte after lead `b` (restricted ranges for `0xE0`,
`0xED`, `0xF0`, `0xF4` rule out over-long forms, surrogates and values
above `0x10FFFF`). -/
def utf8SecondOk (b c1 : Nat) : Bool :=
  if b = 0xE0 then 0xA0 ≤ c1 ∧ c1 ≤ 0xBF
  else if b = 0xED then 0x80 ≤ c1 ∧ c1 ≤ 0x9F
  else if b = 0xF0 then 0x90 ≤ c1 ∧ c1 ≤ 0xBF
  else if b = 0xF4 then 0x80 ≤ c1 ∧ c1 ≤ 0x8F
  else isCont c1

/-- Decode one scalar from lead byte `b` followed by `rest`; returns the
code point and the number of continuation bytes consumed. -/
def utf8DecodeOne (b : Nat) (rest : List Nat) : Option (Nat × Nat) :=
  if b < 0x80 then some (b, 0)
  else if 0xC2 ≤ b ∧ b ≤ 0xDF then
    match rest with
    | c1 :: _ =>
      if isCont c1 then some ((b - 0xC0) * 0x40 + (c1 - 0x80), 1) else none
    | [] => none
  else if 0xE0 ≤ b ∧ b ≤ 0xEF then
    match rest with
    | c1 :: c2 :: _ =>
      if utf8SecondOk b c1 ∧ isCont c2 then
        some ((b - 0xE0) * 0x1000 + (c1 - 0x80) * 0x40 + (c2 - 0x80), 2)
      else none
    | _ => none
  else if 0xF0 ≤ b ∧ b ≤ 0xF4 then
    match rest with
    | c1 :: c2 :: c3 :: _ =>
      if utf8SecondOk b c1 ∧ isCont c2 ∧ isCont c3 then
        some ((b - 0xF0) * 0x40000 + (c1 - 0x80) * 0x1000
                + (c2 - 0x80) * 0x40 + (c3 - 0x80), 3)
      else none
    | _ => none
  else none

/-- Length of the maximal valid prefix of an ill-formed sequence starting
at lead byte `b` (always ≥ 1): the number of bytes `from_utf8_lossy`
replaces by a single U+FFFD. -/
def utf8InvalidSkip (b : Nat) (rest : List Nat) : Nat :=
  if 0xE0 ≤ b ∧ b ≤ 0xEF then
    match rest with
    | c1 :: _ => if utf8SecondOk b c1 then 2 else 1
    | [] => 1
  else if 0xF0 ≤ b ∧ b ≤ 0xF4 then
    match rest with
    | c1 :: c2 :: _ =>
      if utf8SecondOk b c1 then (if isCont c2 then 3 else 2) else 1
    | c1 :: _ => if utf8SecondOk b c1 then 2 else 1
    | [] => 1
  else 1

/-- Strict UTF-8 decoding with explicit fuel (each step consumes at least
one byte, so fuel = byte count suffices). -/
def utf8StrictGo : Nat → List Nat → Option (List Char)
  | _, [] => some []
  | 0, _ :: _ => none
  | fuel + 1, b :: rest =>
    match utf8DecodeOne b rest with
    | some (cp, k) =>
      (utf8StrictGo fuel (rest.drop k)).map (fun cs => Char.ofNat cp :: cs)
    | none => none

/-- Model of `String::from_utf8` (as characters; `none` on invalid UTF-8). -/
def utf8Strict (body : List Nat) : Option (List Char) :=
  utf8StrictGo body.length body

/-- Lossy UTF-8 decoding with fuel. -/
def utf8LossyGo : Nat → List Nat → List Char
  | _, [] => []
  | 0, _ :: _ => []
  | fuel + 1, b :: rest =>
    match utf8DecodeOne b rest with
    | some (cp, k) => Char.ofNat cp :: utf8LossyGo fuel (rest.drop k)
    | none =>
      '�' :: utf8LossyGo fuel (rest.drop (utf8InvalidSkip b rest - 1))

/-- Model of `String::from_utf8_lossy` (never fails; one U+FFFD per
maximal valid prefix of an ill-formed sequence). -/
def utf8Lossy (body : List Nat) : List Char :=
  utf8LossyGo body.length body

/-! ## Token-endpoint response classification (`Client::request_token`) -/

/-- `struct RequestTokenResponse`: what the transport hands back. -/
structure RequestTokenResponse where
  http_status : Nat
  content_type : Option String
  response_body : List Nat
deriving DecidableEq, Repr

/-- `struct ErrorResponse<T>` (fields `error`, `error_description`,
`error_uri`). -/
structure ErrorResponse (E : Type) where
  error : E
  error_description : Option String
  error_uri : Option String
deriving DecidableEq, Repr

/-- `enum RequestTokenError<T>`; the payload of `Request` is the external
curl error and the payload of `Parse` the external serde error, both kept
abstract as type parameters / strings. -/
inductive RequestTokenError (E P : Type) where
  | serverResponse : ErrorResponse E → RequestTokenError E P
  | request : String → RequestTokenError E P
  | parse : P → RequestTokenError E P
  | other : String → RequestTokenError E P
deriving DecidableEq, Repr

/-- The `Content-Type` validation of `request_token`:
`content_type.to_lowercase().starts_with("application/json")`. -/
def contentTypeOk (ct : String) : Bool :=
  "application/json".data.isPrefixOf (asciiLower ct.data)

/-- The display form of Rust's `FromUtf8Error` interpolated into the
`"Couldn't parse response as UTF-8: {}"` message; its exact text is
produced by the standard library (external), so it is modelled as a fixed
string. -/
def utf8ErrorMessage (_body : List Nat) : String :=
  "invalid utf-8 sequence"

/-- The HTTP-200 tail of `Client::request_token`, after the Content-Type
validation: empty-body check, strict UTF-8 decoding, then the token JSON
factory `T::from_json` (passed in as `fromJson`, since serde decoding of
the generic token type is external). -/
def request_token_success_body {T P : Type}
    (fromJson : String → Except P T) (body : List Nat) :
    Except (RequestTokenError E P) T :=
  if body = [] then
    .error (.other "Server returned empty response body")
  else
    match utf8Strict body with
    | none =>
      .error (.other ("Couldn't parse response as UTF-8: "
        ++ utf8ErrorMessage body))
    | some chars =>
      match fromJson (String.mk chars) with
      | .ok t => .ok t
      | .error e => .error (.parse e)

/-- `Client::request_token`, classification part (the transport has
already produced a `RequestTokenResponse`; a transport failure would have
become `RequestTokenError::Request` before this point). `errFromJson`
stands for `serde_json::from_str::<ErrorResponse<TE>>`. -/
def request_token {T E P : Type}
    (fromJson : String → Except P T)
    (errFromJson : String → Except P (ErrorResponse E))
    (resp : RequestTokenResponse) : Except (RequestTokenError E P) T :=
  if resp.http_status ≠ 200 then
    if String.mk (utf8Lossy resp.response_body) = "" then
      .error (.other "Server returned empty error response")
    else
      match errFromJson (String.mk (utf8Lossy resp.response_body)) with
      | .ok e => .error (.serverResponse e)
      | .error e => .error (.parse e)
  else
    match resp.content_type with
    | some ct =>
      if contentTypeOk ct then
        request_token_success_body fromJson resp.response_body
      else
        .error (.other ("Unexpected response Content-Type: `" ++ ct
          ++ "`, should be `application/json`"))
    | none => request_token_success_body fromJson resp.response_body

/-! ## Basic profile (`mod basic`) -/

/-- `enum BasicTokenType`. -/
inductive BasicTokenType where
  | Bearer
  | Mac
deriving DecidableEq, Repr

/-- `helpers::deserialize_untagged_enum_case_insensitive` instantiated at
`BasicTokenType`: the wire string is lowercased and then matched against
the `#[serde(rename_all = "lowercase")]` variant names `"bearer"` and
`"mac"`; anything else is a deserialization error (`none`). -/
def basicTokenTypeFromWire (s : String) : Option BasicTokenType :=
  let l := asciiLower s.data
  if l = "bearer".data then some .Bearer
  else if l = "mac".data then some .Mac
  else none

/-- `enum BasicErrorResponseType`. -/
inductive BasicErrorResponseType where
  | InvalidRequest
  | InvalidClient
  | InvalidGrant
  | UnauthorizedClient
  | UnsupportedGrantType
  | InvalidScope
deriving DecidableEq, Repr

namespace BasicErrorResponseType

/-- `BasicErrorResponseType::to_str`. -/
def to_str : BasicErrorResponseType → String
  | .InvalidRequest => "invalid_request"
  | .InvalidClient => "invalid_client"
  | .InvalidGrant => "invalid_grant"
  | .UnauthorizedClient => "unauthorized_client"
  | .UnsupportedGrantType => "unsupported_grant_type"
  | .InvalidScope => "invalid_scope"

/-- The `Display` implementation writes exactly `to_str` (and `Debug`
delegates to `Display`). -/
def display (v : BasicErrorResponseType) : String := v.to_str

/-- The Rust variant identifier, as seen by serde. -/
def variantName : BasicErrorResponseType → String
  | .InvalidRequest => "InvalidRequest"
  | .InvalidClient => "InvalidClient"
  | .InvalidGrant => "InvalidGrant"
  | .UnauthorizedClient => "UnauthorizedClient"
  | .UnsupportedGrantType => "UnsupportedGrantType"
  | .InvalidScope => "InvalidScope"

end BasicErrorResponseType

/-- One step of serde's `RenameRule::SnakeCase` applied to the characters
after the first: an uppercase letter becomes an underscore followed by its
lowercase form. -/
def snakeTail : List Char → List Char
  | [] => []
  | c :: rest =>
    (if 'A' ≤ c ∧ c ≤ 'Z' then ['_', asciiLowerChar c] else [c])
      ++ snakeTail rest

/-- serde's `#[serde(rename_all = "snake_case")]` rename rule: lowercase
the first character, and prefix every later uppercase character with an
underscore while lowercasing it. The wire form of a variant is this rule
applied to its identifier. -/
def rustSnakeCase (s : String) : String :=
  match s.data with
  | [] => ""
  | c :: rest => String.mk (asciiLowerChar c :: snakeTail rest)

/-- The serde wire serialization of a `BasicErrorResponseType` member. -/
def basicErrorWire (v : BasicErrorResponseType) : String :=
  rustSnakeCase v.variantName

/-! ## Space-delimited scope codec (`mod helpers`)

The scopes field travels as a JSON value that is either a string or null
(`Option::<String>::deserialize`); `WireValue` models that fragment of the
JSON universe. -/

/-- Wire value for the `scope` field: a JSON string or JSON null. -/
inductive WireValue where
  | str : String → WireValue
  | null : WireValue
deriving DecidableEq, Repr

/-- `helpers::serialize_space_delimited_vec`: `Some(v)` becomes the
space-joined string, `None` serializes as null. -/
def serialize_space_delimited_vec : Option (List String) → WireValue
  | some v => .str (joinSpace v)
  | none => .null

/-- `helpers::deserialize_space_delimited_vec` at
`T = Option<Vec<String>>`: a string splits at every space into `Some`
vector (deserializing a `Vec<String>` from an array of strings always
succeeds), null yields the default `None`. -/
def deserialize_space_delimited_vec : WireValue → Option (List String)
  | .str s => some (splitSpace s)
  | .null => none

/-! ## Auxiliary predicates used by the statements -/

/-- The values paired with key `k` in a query, in order. -/
def queryValues (k : String) (q : List (String × String)) : List String :=
  (q.filter (fun p => p.1 == k)).map Prod.snd

/-- Whether the parameter list carries key `k`. -/
def hasKey (k : String) (ps : List (String × String)) : Bool :=
  ps.any (fun p => p.1 == k)

/-- `ps` is one of the four grant-specific parameter sets that
`Client::request_token` can receive from the public exchange
operations. -/
def IsGrantParams (c : Client) (ps : List (String × String)) : Prop :=
  (∃ code, ps = exchange_code_params code)
    ∨ (∃ u p, ps = exchange_password_params u p)
    ∨ ps = exchange_client_credentials_params c
    ∨ (∃ r, ps = exchange_refresh_token_params r)

/-- Character-level agreement up to ASCII case. -/
def asciiCaseEq : List Char → List Char → Bool
  | [], [] => true
  | a :: l, b :: m => (asciiLowerChar a = asciiLowerChar b) && asciiCaseEq l m
  | _, _ => false

/-! ## Lemmas -/

theorem String.mk_data (s : String) : String.mk s.data = s := by
  cases s; rfl

theorem string_data_eq_nil {s : String} : s.data = [] ↔ s = "" := by
  constructor
  · intro h
    exact String.ext h
  · intro h
    simp [h]

theorem string_mk_eq_empty {l : List Char} : String.mk l = "" ↔ l = [] := by
  constructor
  · intro h
    have : (String.mk l).data = [] := by rw [h]
    simpa using this
  · intro h
    simp [h]

theorem joinSp_eq_nil (L : List (List Char)) :
    joinSp L = [] ↔ L = [] ∨ L = [[]] := by
  match L with
  | [] => simp [joinSp]
  | [x] => simp [joinSp]
  | x :: y :: t => simp [joinSp, List.append_eq_nil]

theorem joinSpace_eq_empty (l : List String) :
    joinSpace l = "" ↔ l = [] ∨ l = [""] := by
  rw [joinSpace, string_mk_eq_empty, joinSp_eq_nil]
  constructor
  · rintro (h | h)
    · left
      simpa using h
    · right
      cases l with
      | nil => simp at h
      | cons x t =>
        simp only [List.map_cons, List.cons.injEq] at h
        obtain ⟨hx, ht⟩ := h
        have hx' : x = "" := string_data_eq_nil.mp hx
        have ht' : t = [] := by simpa using ht
        simp [hx', ht']
  · rintro (h | h) <;> simp [h]

theorem splitSp_no_space (l : List Char) (h : ' ' ∉ l) :
    splitSp l = [l] := by
  induction l with
  | nil => rfl
  | cons c rest ih =>
    have hc : ¬ c = ' ' := fun hc => h (hc ▸ List.mem_cons_self c rest)
    have hr : ' ' ∉ rest := fun hm => h (List.mem_cons_of_mem c hm)
    simp [splitSp, hc, ih hr]

theorem splitSp_append_space (x r : List Char) (h : ' ' ∉ x) :
    splitSp (x ++ ' ' :: r) = x :: splitSp r := by
  induction x with
  | nil => simp [splitSp]
  | cons c rest ih =>
    have hc : ¬ c = ' ' := fun hc => h (hc ▸ List.mem_cons_self c rest)
    have hr : ' ' ∉ rest := fun hm => h (List.mem_cons_of_mem c hm)
    simp [splitSp, hc, ih hr]

theorem splitSp_joinSp (L : List (List Char)) (hne : L ≠ [])
    (h : ∀ x ∈ L, ' ' ∉ x) : splitSp (joinSp L) = L := by
  induction L with
  | nil => exact absurd rfl hne
  | cons x t ih =>
    match t with
    | [] =>
      exact splitSp_no_space x (h x (List.mem_cons_self x []))
    | y :: t' =>
      have hx : ' ' ∉ x := h x (List.mem_cons_self _ _)
      have ht : ∀ z ∈ y :: t', ' ' ∉ z :=
        fun z hz => h z (List.mem_cons_of_mem x hz)
      rw [joinSp, splitSp_append_space x _ hx, ih (by simp) ht]

theorem utf8Lossy_eq_nil (body : List Nat) :
    utf8Lossy body = [] ↔ body = [] := by
  match body with
  | [] => simp [utf8Lossy, utf8LossyGo]
  | b :: rest =>
    rw [utf8Lossy]
    constructor
    · intro h
      exfalso
      cases hd : utf8DecodeOne b rest with
      | some v =>
        rw [show (b :: rest).length = rest.length + 1 from rfl,
          utf8LossyGo, hd] at h
        exact absurd h (by simp)
      | none =>
        rw [show (b :: rest).length = rest.length + 1 from rfl,
          utf8LossyGo, hd] at h
        exact absurd h (by simp)
    · intro h
      exact absurd h (by simp)

theorem asciiCaseEq_iff_lower_eq (l m : List Char) :
    asciiCaseEq l m = true ↔ asciiLower l = asciiLower m := by
  induction l generalizing m with
  | nil =>
    cases m <;> simp [asciiCaseEq, asciiLower]
  | cons a l ih =>
    cases m with
    | nil => simp [asciiCaseEq, asciiLower]
    | cons b m =>
      have h := ih m
      simp only [asciiLower] at h
      simp only [asciiCaseEq, Bool.and_eq_true, decide_eq_true_eq,
        asciiLower, List.map_cons, List.cons.injEq]
      exact and_congr Iff.rfl h

/-! ## Claim C9 -/

/-- C9: for each of the six members of `BasicErrorResponseType`, the
`Display` form equals the serde wire serialization (the snake_case rename
rule applied to the variant identifier), and both equal the literal
RFC 6749 §5.2 snake_case string. -/
theorem basic_error_display_eq_wire_c9 :
    (∀ v : BasicErrorResponseType,
        v.display = basicErrorWire v ∧ basicErrorWire v = v.to_str)
    ∧ BasicErrorResponseType.to_str .InvalidRequest = "invalid_request"
    ∧ BasicErrorResponseType.to_str .InvalidClient = "invalid_client"
    ∧ BasicErrorResponseType.to_str .InvalidGrant = "invalid_grant"
    ∧ BasicErrorResponseType.to_str .UnauthorizedClient
        = "unauthorized_client"
    ∧ BasicErrorResponseType.to_str .UnsupportedGrantType
        = "unsupported_grant_type"
    ∧ BasicErrorResponseType.to_str .InvalidScope = "invalid_scope" := by
  refine ⟨fun v => ?_, rfl, rfl, rfl, rfl, rfl, rfl⟩
  cases v <;> exact ⟨by decide, by decide⟩

/-! ## Claim C8 -/

/-- C8: `BasicTokenType` deserialization is case-insensitive: a wire
string parses to `Bearer` exactly when it agrees with `"bearer"` up to
ASCII case, to `Mac` exactly when it agrees with `"mac"`, and fails
otherwise. -/
theorem basic_token_type_case_insensitive_c8 (s : String) :
    (basicTokenTypeFromWire s = some .Bearer
        ↔ asciiCaseEq s.data "bearer".data = true)
    ∧ (basicTokenTypeFromWire s = some .Mac
        ↔ asciiCaseEq s.data "mac".data = true)
    ∧ (basicTokenTypeFromWire s = none
        ↔ (asciiCaseEq s.data "bearer".data = false
            ∧ asciiCaseEq s.data "mac".data = false)) := by
  have hb : asciiLower "bearer".data = "bearer".data := by decide
  have hm : asciiLower "mac".data = "mac".data := by decide
  have eb : asciiCaseEq s.data "bearer".data = true
      ↔ asciiLower s.data = "bearer".data := by
    rw [asciiCaseEq_iff_lower_eq, hb]
  have em : asciiCaseEq s.data "mac".data = true
      ↔ asciiLower s.data = "mac".data := by
    rw [asciiCaseEq_iff_lower_eq, hm]
  by_cases h1 : asciiLower s.data = "bearer".data
  · have h2 : ¬ asciiLower s.data = "mac".data := by
      rw [h1]
      decide
    have pb : basicTokenTypeFromWire s = some .Bearer := by
      simp [basicTokenTypeFromWire, h1]
    refine ⟨iff_of_true pb (eb.mpr h1),
      iff_of_false (by simp [pb]) (fun hm' => h2 (em.mp hm')),
      iff_of_false (by simp [pb]) ?_⟩
    rintro ⟨hf, _⟩
    rw [eb.mpr h1] at hf
    exact Bool.noConfusion hf
  · by_cases h2 : asciiLower s.data = "mac".data
    · have pm : basicTokenTypeFromWire s = some .Mac := by
        simp [basicTokenTypeFromWire, h1, h2]
      refine ⟨iff_of_false (by simp [pm]) (fun hb' => h1 (eb.mp hb')),
        iff_of_true pm (em.mpr h2),
        iff_of_false (by simp [pm]) ?_⟩
      rintro ⟨_, hf⟩
      rw [em.mpr h2] at hf
      exact Bool.noConfusion hf
    · have pn : basicTokenTypeFromWire s = none := by
        simp [basicTokenTypeFromWire, h1, h2]
      have fb : asciiCaseEq s.data "bearer".data = false := by
        cases hcb : asciiCaseEq s.data "bearer".data
        · rfl
        · exact absurd (eb.mp hcb) h1
      have fm : asciiCaseEq s.data "mac".data = false := by
        cases hcm : asciiCaseEq s.data "mac".data
        · rfl
        · exact absurd (em.mp hcm) h2
      exact ⟨iff_of_false (by simp [pn]) (fun hb' => h1 (eb.mp hb')),
        iff_of_false (by simp [pn]) (fun hm' => h2 (em.mp hm')),
        iff_of_true pn ⟨fb, fm⟩⟩

/-! ## Claim C5 -/

/-- C5: the query parameters appended by `authorize_url_impl` come in the
order `response_type`, `client_id`, `redirect_uri` (iff configured),
`scope` (iff the joined scope string is non-empty), `state` (iff
provided), then every extra parameter verbatim in caller order; every
extra pair lands in the query unchanged even when its key repeats a
reserved one (duplication, not rejection). All five public entry points
delegate to `authorize_url_impl` with the arguments shown. -/
theorem authorize_query_order_c5 (c : Client) (rt : String)
    (st : Option String) (ex : Option (List (String × String))) :
    (authorize_url_impl c rt st ex).query
      = c.auth_url.query
        ++ ([("response_type", rt), ("client_id", c.client_id)]
            ++ (match c.redirect_url with
                | some r => [("redirect_uri", r)]
                | none => [])
            ++ (if joinSpace c.scopes = "" then []
                else [("scope", joinSpace c.scopes)])
            ++ (match st with
                | some s => [("state", s)]
                | none => []))
        ++ ex.getD []
    ∧ (∀ kv ∈ ex.getD [], kv ∈ (authorize_url_impl c rt st ex).query)
    ∧ (∀ state, authorize_url c state
          = authorize_url_impl c "code" (some state) none)
    ∧ (∀ state, authorize_url_implicit c state
          = authorize_url_impl c "token" (some state) none)
    ∧ (∀ rt' ep, authorize_url_extension c rt' ep
          = authorize_url_impl c rt' none (some ep))
    ∧ insecure_authorize_url c = authorize_url_impl c "code" none none
    ∧ insecure_authorize_url_implicit c
        = authorize_url_impl c "token" none none := by
  refine ⟨rfl, ?_, fun _ => rfl, fun _ => rfl, fun _ _ => rfl, rfl, rfl⟩
  intro kv hkv
  simp [authorize_url_impl, hkv]

/-! ## Claim C10 -/

/-- C10: building an authorization URL preserves the configured
`auth_url`'s scheme, host and path, and keeps its pre-existing query
parameters as a prefix, appending the new parameters after them. Every
entry point (`authorize_url`, `authorize_url_implicit`,
`authorize_url_extension` and the two `insecure` variants) is an
application of `authorize_url_impl`, and the embedding is a pure function
of the configuration — mirroring the Rust method taking `&self` — so the
stored configuration is unchanged by the call. -/
theorem authorize_url_preserves_base_c10 (c : Client) (rt : String)
    (st : Option String) (ex : Option (List (String × String))) :
    (authorize_url_impl c rt st ex).scheme = c.auth_url.scheme
    ∧ (authorize_url_impl c rt st ex).host = c.auth_url.host
    ∧ (authorize_url_impl c rt st ex).path = c.auth_url.path
    ∧ (authorize_url_impl c rt st ex).query
        = c.auth_url.query
          ++ (authorize_pairs c rt st ++ ex.getD []) := by
  refine ⟨rfl, rfl, rfl, ?_⟩
  simp [authorize_url_impl, List.append_assoc]

/-! ## Claim C4 (corrected) -/

/-- A concrete configuration whose scope list is the non-empty sequence
`[""]`. -/
def c4Client : Client :=
  { client_id := "cid", client_secret := none,
    auth_url := ⟨"https", "auth.example", "/a", []⟩,
    auth_type := .BasicAuth,
    token_url := ⟨"https", "tok.example", "/t", []⟩,
    scopes := [""], redirect_url := none }

/-- C4 counterexample: with the non-empty scope sequence `[""]` the built
authorization URL carries no `scope` parameter, so "omits `scope` iff the
scope sequence is empty" fails: the source tests emptiness of the joined
string, not of the sequence. -/
theorem scope_omitted_nonempty_seq_c4_cex :
    c4Client.scopes ≠ []
    ∧ queryValues "scope" (authorize_url c4Client "st").query = [] := by
  constructor
  · decide
  · rfl

/-- C4 (amended): the built authorization URL omits the `scope` parameter
iff the space-join of the scope sequence S is the empty string — that is,
iff S is `[]` or the singleton `[""]`; otherwise it carries exactly one
`scope` parameter whose value is the elements of S joined by single
spaces, in insertion order. (Hypothesis: the configured `auth_url` does
not itself already carry a `scope` query parameter.) -/
theorem scope_param_iff_join_nonempty_c4 (c : Client) (state : String)
    (hbase : queryValues "scope" c.auth_url.query = []) :
    queryValues "scope" (authorize_url c state).query
      = (if joinSpace c.scopes = "" then [] else [joinSpace c.scopes])
    ∧ (joinSpace c.scopes = "" ↔ c.scopes = [] ∨ c.scopes = [""]) := by
  refine ⟨?_, joinSpace_eq_empty c.scopes⟩
  have : (authorize_url c state).query
      = c.auth_url.query ++ authorize_pairs c "code" (some state) ++ [] :=
    rfl
  rw [this]
  simp only [queryValues, List.filter_append, List.map_append] at hbase ⊢
  rw [hbase]
  simp only [List.nil_append, List.append_nil, authorize_pairs]
  cases c.redirect_url <;>
    by_cases hj : joinSpace c.scopes = "" <;>
      simp [hj, List.filter, queryValues]

/-- Witness for the amended C4 at a configuration with two scopes. -/
theorem scope_param_iff_join_nonempty_c4_witness :
    queryValues "scope"
        ({ c4Client with scopes := ["read", "write"] } : Client).auth_url.query
      = []
    ∧ (queryValues "scope"
          (authorize_url { c4Client with scopes := ["read", "write"] } "st").query
        = (if joinSpace ["read", "write"] = "" then []
           else [joinSpace ["read", "write"]])
      ∧ (joinSpace ["read", "write"] = ""
          ↔ ["read", "write"] = ([] : List String)
            ∨ ["read", "write"] = [""])) :=
  ⟨rfl,
    scope_param_iff_join_nonempty_c4
      { c4Client with scopes := ["read", "write"] } "st" rfl⟩

/-! ## Claim C6 (corrected) -/

/-- C6 counterexample: serializing scopes `Some([])` produces the empty
string, which deserializes to `Some([""])`, not the original empty
sequence — Rust's `"".split(' ')` yields one empty piece. -/
theorem scope_roundtrip_empty_seq_c6_cex :
    deserialize_space_delimited_vec
        (serialize_space_delimited_vec (some []))
      = some [""]
    ∧ some [""] ≠ some ([] : List String) := by
  constructor
  · rfl
  · decide

/-- C6 (amended): for every NON-EMPTY sequence of scope strings containing
no space character, serializing with the space-delimited encoding and
deserializing recovers exactly the original ordered sequence; `None`
serializes as the wire null and deserializes back to `None`. (The empty
sequence instead round-trips to `[""]`.) -/
theorem scope_roundtrip_c6 (l : List String) (hne : l ≠ [])
    (h : ∀ x ∈ l, ' ' ∉ x.data) :
    deserialize_space_delimited_vec
        (serialize_space_delimited_vec (some l))
      = some l
    ∧ deserialize_space_delimited_vec
        (serialize_space_delimited_vec none)
      = none := by
  refine ⟨?_, rfl⟩
  have hne' : l.map String.data ≠ [] := by
    simpa using hne
  have h' : ∀ x ∈ l.map String.data, ' ' ∉ x := by
    intro x hx
    obtain ⟨y, hy, rfl⟩ := List.mem_map.mp hx
    exact h y hy
  simp only [serialize_space_delimited_vec, deserialize_space_delimited_vec,
    splitSpace, joinSpace, Option.some.injEq]
  rw [splitSp_joinSp _ hne' h', List.map_map]
  have : (String.mk ∘ String.data) = id := by
    funext s
    exact String.mk_data s
  rw [this, List.map_id]

/-- Witness for the amended C6 at the scope sequence `["read", "write"]`. -/
theorem scope_roundtrip_c6_witness :
    (["read", "write"] : List String) ≠ []
    ∧ (deserialize_space_delimited_vec
          (serialize_space_delimited_vec (some ["read", "write"]))
        = some ["read", "write"]
      ∧ deserialize_space_delimited_vec
          (serialize_space_delimited_vec none)
        = none) :=
  ⟨by decide, scope_roundtrip_c6 ["read", "write"] (by decide) (by decide)⟩

/-! ## Claim C3 -/

theorem grant_params_keys (c : Client) (ps : List (String × String))
    (h : IsGrantParams c ps) :
    hasKey "client_id" ps = false
    ∧ hasKey "client_secret" ps = false
    ∧ hasKey "redirect_uri" ps = false := by
  rcases h with ⟨code, rfl⟩ | ⟨u, p, rfl⟩ | rfl | ⟨r, rfl⟩
  · simp [hasKey, exchange_code_params]
  · simp [hasKey, exchange_password_params]
  · by_cases hs : c.scopes.isEmpty <;>
      simp [hasKey, exchange_client_credentials_params, hs]
  · simp [hasKey, exchange_refresh_token_params]

/-- C3: for every client configuration and each of the four grant-specific
parameter sets, the POST request is determined by `auth_type`: with
`RequestBody` the body is the grant parameters followed by `client_id`
and, when configured, `client_secret` (and no Basic credentials are set);
with `BasicAuth` the credentials are set (`client_id` as username,
`client_secret` as password when present) and neither `client_id` nor
`client_secret` appears in the body. In both modes `redirect_uri` is
appended to the body — after the authentication parameters — iff a
redirect URL is configured. -/
theorem post_request_auth_encoding_c3 (c : Client)
    (ps : List (String × String)) (h : IsGrantParams c ps) :
    post_request_token c ps
      = { bodyParams :=
            ps ++ (match c.auth_type with
                   | .RequestBody =>
                     ("client_id", c.client_id)
                       :: (match c.client_secret with
                           | some s => [("client_secret", s)]
                           | none => [])
                   | .BasicAuth => [])
               ++ (match c.redirect_url with
                   | some r => [("redirect_uri", r)]
                   | none => []),
          username := match c.auth_type with
                      | .RequestBody => none
                      | .BasicAuth => some c.client_id,
          password := match c.auth_type with
                      | .RequestBody => none
                      | .BasicAuth => c.client_secret }
    ∧ (c.auth_type = .BasicAuth →
        hasKey "client_id" (post_request_token c ps).bodyParams = false
        ∧ hasKey "client_secret" (post_request_token c ps).bodyParams
            = false)
    ∧ (c.auth_type = .RequestBody →
        hasKey "client_id" (post_request_token c ps).bodyParams = true
        ∧ (c.client_secret ≠ none →
            hasKey "client_secret" (post_request_token c ps).bodyParams
              = true))
    ∧ (hasKey "redirect_uri" (post_request_token c ps).bodyParams = true
        ↔ c.redirect_url ≠ none) := by
  obtain ⟨hcid, hsec, hred⟩ := grant_params_keys c ps h
  have happ : ∀ (k : String) (a b : List (String × String)),
      hasKey k (a ++ b) = (hasKey k a || hasKey k b) :=
    fun _ _ _ => List.any_append
  have hrec : post_request_token c ps
      = { bodyParams :=
            ps ++ (match c.auth_type with
                   | .RequestBody =>
                     ("client_id", c.client_id)
                       :: (match c.client_secret with
                           | some s => [("client_secret", s)]
                           | none => [])
                   | .BasicAuth => [])
               ++ (match c.redirect_url with
                   | some r => [("redirect_uri", r)]
                   | none => []),
          username := match c.auth_type with
                      | .RequestBody => none
                      | .BasicAuth => some c.client_id,
          password := match c.auth_type with
                      | .RequestBody => none
                      | .BasicAuth => c.client_secret } := by
    cases hat : c.auth_type <;>
      cases hcs : c.client_secret <;>
        cases hru : c.redirect_url <;>
          simp [post_request_token, hat, hcs, hru, List.append_assoc]
  have hbody := congrArg PostRequest.bodyParams hrec
  refine ⟨hrec, ?_, ?_, ?_⟩
  · intro hat
    constructor
    · rw [hbody, happ, happ, hcid]
      cases hru : c.redirect_url <;> simp [hat, hru, hasKey]
    · rw [hbody, happ, happ, hsec]
      cases hru : c.redirect_url <;> simp [hat, hru, hasKey]
  · intro hat
    constructor
    · rw [hbody, happ, happ]
      simp [hat, hasKey]
    · intro hcsne
      obtain ⟨sec, hcs⟩ := Option.ne_none_iff_exists'.mp hcsne
      rw [hbody, happ, happ]
      simp [hat, hcs, hasKey]
  · rw [hbody, happ, happ, hred]
    cases hat : c.auth_type <;>
      cases hcs : c.client_secret <;>
        cases hru : c.redirect_url <;> simp [hat, hcs, hru, hasKey]

/-- A concrete confidential client using `RequestBody` authentication and
a configured redirect URL, for the C3 witness. -/
def c3Client : Client :=
  { client_id := "id", client_secret := some "sec",
    auth_url := ⟨"https", "auth.example", "/a", []⟩,
    auth_type := .RequestBody,
    token_url := ⟨"https", "tok.example", "/t", []⟩,
    scopes := [], redirect_url := some "https://redirect.example" }

/-- Witness for C3 at a concrete client and the authorization-code grant
parameter set. -/
theorem post_request_auth_encoding_c3_witness :
    IsGrantParams c3Client (exchange_code_params "thecode")
    ∧ (post_request_token c3Client (exchange_code_params "thecode")
        = { bodyParams :=
              exchange_code_params "thecode"
                ++ (match c3Client.auth_type with
                    | .RequestBody =>
                      ("client_id", c3Client.client_id)
                        :: (match c3Client.client_secret with
                            | some s => [("client_secret", s)]
                            | none => [])
                    | .BasicAuth => [])
                ++ (match c3Client.redirect_url with
                    | some r => [("redirect_uri", r)]
                    | none => []),
            username := match c3Client.auth_type with
                        | .RequestBody => none
                        | .BasicAuth => some c3Client.client_id,
            password := match c3Client.auth_type with
                        | .RequestBody => none
                        | .BasicAuth => c3Client.client_secret }
      ∧ (c3Client.auth_type = .BasicAuth →
          hasKey "client_id"
              (post_request_token c3Client
                (exchange_code_params "thecode")).bodyParams = false
          ∧ hasKey "client_secret"
              (post_request_token c3Client
                (exchange_code_params "thecode")).bodyParams = false)
      ∧ (c3Client.auth_type = .RequestBody →
          hasKey "client_id"
              (post_request_token c3Client
                (exchange_code_params "thecode")).bodyParams = true
          ∧ (c3Client.client_secret ≠ none →
              hasKey "client_secret"
                  (post_request_token c3Client
                    (exchange_code_params "thecode")).bodyParams = true))
      ∧ (hasKey "redirect_uri"
            (post_request_token c3Client
              (exchange_code_params "thecode")).bodyParams = true
          ↔ c3Client.redirect_url ≠ none)) :=
  ⟨Or.inl ⟨"thecode", rfl⟩,
    post_request_auth_encoding_c3 c3Client (exchange_code_params "thecode")
      (Or.inl ⟨"thecode", rfl⟩)⟩

/-! ## Claim C1 -/

/-- C1: on an HTTP-200 response whose `Content-Type` header is present
and whose lowercased value does not start with `application/json`, every
exchange returns `Other` naming the unexpected Content-Type — for every
body and every token decoder, so never a successful token even if the
body is valid token JSON. When the header is absent the response proceeds
to the normal success-body handling, i.e. it is not rejected for the
Content-Type. -/
theorem content_type_validation_c1 {T E P : Type}
    (fromJson : String → Except P T)
    (errFromJson : String → Except P (ErrorResponse E))
    (ct : String) (body : List Nat)
    (hct : contentTypeOk ct = false) :
    request_token fromJson errFromJson
        ⟨200, some ct, body⟩
      = .error (.other ("Unexpected response Content-Type: `" ++ ct
          ++ "`, should be `application/json`"))
    ∧ request_token fromJson errFromJson ⟨200, none, body⟩
        = request_token_success_body fromJson body := by
  constructor
  · simp [request_token, hct]
  · simp [request_token]

/-- Witness for C1: `Content-Type: text/html` with a body on which the
token decoder would succeed still yields the `Other` error. -/
theorem content_type_validation_c1_witness :
    contentTypeOk "text/html" = false
    ∧ (request_token (fun _ => Except.ok (0 : Nat))
          (fun _ => (Except.error "e" : Except String (ErrorResponse Unit)))
          ⟨200, some "text/html", [48]⟩
        = .error (.other ("Unexpected response Content-Type: `"
            ++ "text/html" ++ "`, should be `application/json`"))
      ∧ request_token (fun _ => Except.ok (0 : Nat))
          (fun _ => (Except.error "e" : Except String (ErrorResponse Unit)))
          ⟨200, none, [48]⟩
        = request_token_success_body (fun _ => Except.ok (0 : Nat)) [48]) :=
  ⟨by decide,
    content_type_validation_c1 (fun _ => Except.ok (0 : Nat))
      (fun _ => Except.error "e") "text/html" [48] (by decide)⟩

/-! ## Claim C2 -/

/-- C2: on an HTTP status other than 200, every exchange returns an
error determined as follows: empty body ⇒
`Other("Server returned empty error response")`; otherwise the lossily
decoded body is fed to the `ErrorResponse` decoder, whose success yields
`ServerResponse` with the parsed error and whose failure yields `Parse`
with the decode error. No success is possible. -/
theorem error_status_classification_c2 {T E P : Type}
    (fromJson : String → Except P T)
    (errFromJson : String → Except P (ErrorResponse E))
    (resp : RequestTokenResponse) (h : resp.http_status ≠ 200) :
    (resp.response_body = [] →
      request_token fromJson errFromJson resp
        = .error (.other "Server returned empty error response"))
    ∧ (∀ e, resp.response_body ≠ [] →
        errFromJson (String.mk (utf8Lossy resp.response_body)) = .ok e →
        request_token fromJson errFromJson resp
          = .error (.serverResponse e))
    ∧ (∀ pe, resp.response_body ≠ [] →
        errFromJson (String.mk (utf8Lossy resp.response_body))
            = .error pe →
        request_token fromJson errFromJson resp = .error (.parse pe))
    ∧ (∀ t, request_token fromJson errFromJson resp ≠ .ok t) := by
  have hreason : (String.mk (utf8Lossy resp.response_body) = "")
      ↔ resp.response_body = [] := by
    rw [string_mk_eq_empty, utf8Lossy_eq_nil]
  refine ⟨?_, ?_, ?_, ?_⟩
  · intro hb
    rw [request_token, if_pos h, if_pos (hreason.mpr hb)]
  · intro e hb he
    rw [request_token, if_pos h,
      if_neg (fun hemp => hb (hreason.mp hemp)), he]
  · intro pe hb he
    rw [request_token, if_pos h,
      if_neg (fun hemp => hb (hreason.mp hemp)), he]
  · intro t
    rw [request_token, if_pos h]
    split
    · simp
    · split <;> simp

/-- Witness for C2: status 400 with body `"x"` and an error decoder that
accepts it produces `ServerResponse` with the parsed error. -/
theorem error_status_classification_c2_witness :
    ((400 : Nat) ≠ 200
      ∧ ([120] : List Nat) ≠ [])
    ∧ request_token (fun _ => (Except.error "p" : Except String Nat))
        (fun _ =>
          (Except.ok ⟨(), none, none⟩ :
            Except String (ErrorResponse Unit)))
        ⟨400, none, [120]⟩
      = .error (.serverResponse ⟨(), none, none⟩) :=
  ⟨⟨by decide, by decide⟩,
    (error_status_classification_c2
        (fun _ => (Except.error "p" : Except String Nat))
        (fun _ => Except.ok ⟨(), none, none⟩)
        ⟨400, none, [120]⟩ (by decide)).2.1
      ⟨(), none, none⟩ (by decide) rfl⟩

/-! ## Claim C7 (corrected) -/

/-- C7 counterexample: a non-UTF-8 body (`[0xFF]`) on a NON-200 response
does not produce the `Couldn't parse response as UTF-8` `Other` error:
the body is decoded lossily (to U+FFFD), handed to the `ErrorResponse`
decoder, and the decode failure surfaces as `Parse` — refuting the claim
that the UTF-8 error is returned for every HTTP status. -/
theorem utf8_error_not_on_error_status_c7_cex :
    utf8Strict [255] = none
    ∧ request_token (fun _ => (Except.error "p" : Except String Nat))
        (fun _ => (Except.error "q" : Except String (ErrorResponse Unit)))
        ⟨400, none, [255]⟩
      = .error (.parse "q") := by
  constructor
  · decide
  · rfl

/-- C7 (amended): for HTTP-200 responses that pass the Content-Type
validation (header absent, or lowercased value starting with
`application/json`) and whose non-empty body is not valid UTF-8, every
exchange returns `Other` with a message of the form
`"Couldn't parse response as UTF-8: …"`. For non-200 statuses the body
is instead decoded lossily and never rejected for UTF-8 validity. -/
theorem utf8_error_on_success_status_c7 {T E P : Type}
    (fromJson : String → Except P T)
    (errFromJson : String → Except P (ErrorResponse E))
    (ctOpt : Option String) (body : List Nat)
    (hct : ctOpt = none ∨ ∃ ct, ctOpt = some ct ∧ contentTypeOk ct = true)
    (hne : body ≠ [])
    (hbad : utf8Strict body = none) :
    request_token fromJson errFromJson ⟨200, ctOpt, body⟩
      = .error (.other ("Couldn't parse response as UTF-8: "
          ++ utf8ErrorMessage body)) := by
  have hsb : request_token_success_body (E := E) fromJson body
      = .error (.other ("Couldn't parse response as UTF-8: "
          ++ utf8ErrorMessage body)) := by
    rw [request_token_success_body]
    simp [hne, hbad]
  rcases hct with rfl | ⟨ct, rfl, hok⟩
  · simpa [request_token] using hsb
  · simpa [request_token, hok] using hsb

/-- Witness for the amended C7: status 200, no Content-Type header, body
`[0xFF]`. -/
theorem utf8_error_on_success_status_c7_witness :
    (((none : Option String) = none
        ∨ ∃ ct, (none : Option String) = some ct
            ∧ contentTypeOk ct = true)
      ∧ ([255] : List Nat) ≠ []
      ∧ utf8Strict [255] = none)
    ∧ request_token (fun _ => (Except.ok 0 : Except String Nat))
        (fun _ => (Except.error "q" : Except String (ErrorResponse Unit)))
        ⟨200, none, [255]⟩
      = .error (.other ("Couldn't parse response as UTF-8: "
          ++ utf8ErrorMessage [255])) :=
  ⟨⟨Or.inl rfl, by decide, by decide⟩,
    utf8_error_on_success_status_c7
      (fun _ => Except.ok 0) (fun _ => Except.error "q") none [255]
      (Or.inl rfl) (by decide) (by decide)⟩

end OAuth2
